import Mathlib

/-!
Verification of the speech-submission pipeline of the gamified
public-speaking application.

The Python source is shallowly embedded: JSON payloads become an inductive
`Json` type, the MySQL tables touched by the pipeline become lists of record
rows inside a `DBState`, remote calls (file system, AssemblyAI, Gemini)
become explicit oracle parameters, and every manager function that the
claims mention is translated statement by statement from the source files
(`managers/game_manager.py`, `managers/auth_manager.py`,
`managers/transcription_manager.py`, `managers/ai_manager.py`,
`services/routes.py`).  Numeric values that Python stores as float are
modelled as rationals.  Timestamps (completed_at, last_activity,
created_at) are not modelled; no claim mentions them.
-/

/-- JSON values, as produced by `json.loads` in the Python source.  Python
booleans act as the numbers 0 and 1 in arithmetic, which is handled at the
lookup sites. -/
inductive Json where
  | null : Json
  | bool (b : Bool) : Json
  | num (q : ℚ) : Json
  | str (s : String) : Json
  | arr (items : List Json) : Json
  | obj (fields : List (String × Json)) : Json

namespace Json

/-- Dictionary lookup `d[k]` or `d.get(k)`: first binding of the key in an
object, `none` for a missing key or a non-object value. -/
def get? : Json → String → Option Json
  | .obj fields, k => (fields.find? (fun p => p.1 == k)).map (fun p => p.2)
  | _, _ => none

/-- Numeric view of a JSON value as used by Python arithmetic: numbers are
themselves, booleans count as 0 or 1, anything else raises a TypeError. -/
def numval : Json → Option ℚ
  | .num q => some q
  | .bool b => some (if b then 1 else 0)
  | _ => none

end Json

/-! ## SpeechAnalyzer: ai_manager.analyze_speech (lines 14-62)
and ai_manager._fallback_analysis (lines 96-111) -/

/-- Translation of the code-fence stripping in `analyze_speech` lines
48-51: `response_text[7:-3]` after a leading three-backtick json tag,
`response_text[3:-3]` after a bare fence.  Python slicing with a negative
stop on a short string yields the empty string, exactly as
`String.drop` followed by `String.dropRight` does. -/
def stripFence (s : String) : String :=
  if s.startsWith "```json" then (s.drop 7).dropRight 3
  else if s.startsWith "```" then (s.drop 3).dropRight 3
  else s

/-- Literal translation of `AIManager._fallback_analysis` (lines 96-111). -/
def fallback_analysis : Json :=
  .obj [("repetition_score", .num 75),
        ("filler_count", .num 0),
        ("weak_words_count", .num 0),
        ("flow_score", .num 70),
        ("confidence_score", .num 70),
        ("summary", .obj [("flow", .str "Speech analysis temporarily unavailable"),
                          ("weakness", .str "Unable to analyze at this time"),
                          ("growth_potential", .str "Keep practicing your speaking skills")]),
        ("detailed_feedback", .str "Analysis service temporarily unavailable. Your speech was recorded successfully."),
        ("strengths", .arr [.str "Completed the speaking task"]),
        ("improvement_areas", .arr [.str "Continue practicing regularly"])]

/-- Translation of `AIManager.analyze_speech`.  The remote model call is an
oracle: `.error` when `generate_content` (or reading `response.text`)
raises, `.ok text` when it returns text.  `jsonLoads` is the external
`json.loads`, `none` when parsing raises `JSONDecodeError`.  Both `except`
arms of the source return `_fallback_analysis()`; the transcription and
task prompt only influence the oracle, so they are absorbed into it. -/
def analyze_speech (modelResponse : Except Unit String)
    (jsonLoads : String → Option Json) : Json :=
  match modelResponse with
  | .error _ => fallback_analysis
  | .ok text =>
    match jsonLoads (stripFence text.trim) with
    | none => fallback_analysis
    | some analysis => analysis

/-- String check used by the schema predicate below. -/
def isStr : Json → Bool
  | .str _ => true
  | _ => false

/-- The response schema demanded by the analysis prompt of
`analyze_speech` (lines 24-39): the nine keys in order, numeric scores and
counts, a three-field summary object of strings, a string feedback
paragraph, and two arrays of strings. -/
def conformsAnalysisSchema : Json → Bool
  | .obj [("repetition_score", .num _), ("filler_count", .num _),
          ("weak_words_count", .num _), ("flow_score", .num _),
          ("confidence_score", .num _),
          ("summary", .obj [("flow", .str _), ("weakness", .str _),
                            ("growth_potential", .str _)]),
          ("detailed_feedback", .str _),
          ("strengths", .arr strengths),
          ("improvement_areas", .arr improvements)] =>
      strengths.all isStr && improvements.all isStr
  | _ => false

/-! ## ScoringEngine: game_manager.calculate_level_score (lines 140-158) -/

/-- Embeds `ai_feedback.get(key, 0)` followed by use in arithmetic:
a missing key contributes the default 0, a numeric (or boolean) value is
used as a number, and any other value type makes the later arithmetic
raise, which the enclosing `except` turns into the default result 50. -/
def scoreField (fields : List (String × Json)) (k : String) : Option ℚ :=
  match fields.find? (fun p => p.1 == k) with
  | none => some 0
  | some p => p.2.numval

/-- Translation of `GameManager.calculate_level_score`.  The function reads
the five numeric fields, computes
`total = (repetition + flow + confidence) / 3`, subtracts the two capped
penalties, clamps at 0 and rounds.  A non-dict argument or an ill-typed
field raises inside the `try` block and yields the documented default 50.
Python applies banker's rounding, Lean `round` rounds halves up; the two
agree on every value this function rounds at integer-valued fields,
because the argument of `round` then has denominator 1 or 3 and is never a
half-integer. -/
def calculate_level_score (ai_feedback : Json) : ℤ :=
  match ai_feedback with
  | .obj fields =>
    match scoreField fields "repetition_score", scoreField fields "flow_score",
          scoreField fields "confidence_score", scoreField fields "filler_count",
          scoreField fields "weak_words_count" with
    | some repetition_score, some flow_score, some confidence_score,
      some filler_count, some weak_words_count =>
        let filler_penalty := min (filler_count * 2) 20
        let weak_words_penalty := min (weak_words_count * 3) 15
        let total_score := (repetition_score + flow_score + confidence_score) / 3
        round (max 0 (total_score - filler_penalty - weak_words_penalty))
    | _, _, _, _, _ => 50
  | _ => 50

/-- An analysis-result object carrying the five numeric fields that
`calculate_level_score` and `update_user_statistics` read, in the schema
order of the AI prompt. -/
def mkAnalysis (repetition flow confidence fillerCount weakWords : ℚ) : Json :=
  .obj [("repetition_score", .num repetition),
        ("flow_score", .num flow),
        ("confidence_score", .num confidence),
        ("filler_count", .num fillerCount),
        ("weak_words_count", .num weakWords)]

/-- The closed form stated by the spec for the level score at numeric
inputs. -/
def claimedScore (r f c : ℤ) (fc wc : ℕ) : ℤ :=
  max 0 (round (((r : ℚ) + f + c) / 3 - min (2 * (fc : ℚ)) 20 - min (3 * (wc : ℚ)) 15))

/-! ## Database state

Lists of rows for the four tables the pipeline touches, plus a counter
standing in for MySQL auto-increment ids.  Only the columns the core reads
or writes are modelled. -/

structure LevelRow where
  id : ℕ
  level_number : ℤ
  is_active : Bool
  deriving DecidableEq

structure ProgressRow where
  id : ℕ
  user_id : ℕ
  level_id : ℕ
  is_completed : Bool
  score : ℤ
  deriving DecidableEq

structure StatsRow where
  user_id : ℕ
  total_speeches : ℕ
  avg_filler_count : ℚ
  avg_repetition_score : ℚ
  avg_flow_score : ℚ
  best_level_completed : ℤ
  deriving DecidableEq

structure SpeechRow where
  id : ℕ
  user_id : ℕ
  level_number : Option ℤ
  task_id : Option ℕ
  transcription : String
  ai_feedback : Json
  audio_duration : ℚ
  is_quick_task : Bool

structure DBState where
  levels : List LevelRow
  user_progress : List ProgressRow
  user_statistics : List StatsRow
  speech_responses : List SpeechRow
  next_id : ℕ

/-! ## ProgressTracker: game_manager (lines 55-68, 70-112, 160-177)

Each `db.execute_query` commits on its own; database exceptions
(connection loss) are outside the model, so the insert helpers always
succeed, matching the spec assumption that single statements are
transactional. -/

/-- Translation of `GameManager.save_speech_response` (lines 55-68): a
plain INSERT into speech_responses, returning the new row id. -/
def save_speech_response (st : DBState) (uid : ℕ) (lvl : Option ℤ)
    (task : Option ℕ) (transcription : String) (ai_feedback : Json)
    (audio_duration : ℚ) (is_quick_task : Bool) : DBState × Option ℕ :=
  let row : SpeechRow :=
    ⟨st.next_id, uid, lvl, task, transcription, ai_feedback, audio_duration, is_quick_task⟩
  ({ st with speech_responses := st.speech_responses ++ [row],
             next_id := st.next_id + 1 }, some st.next_id)

/-- Translation of `GameManager.complete_level` (lines 70-112): look up the
level id by number, update the existing (user, level) progress row in place
if one exists, otherwise insert one, then raise best_level_completed with
GREATEST. -/
def complete_level (st : DBState) (uid : ℕ) (level_number : ℤ)
    (score : ℤ) : DBState × Bool :=
  match st.levels.find? (fun l => l.level_number == level_number) with
  | none => (st, false)
  | some level =>
    let st1 :=
      match st.user_progress.find? (fun p => p.user_id == uid && p.level_id == level.id) with
      | some _ =>
        { st with user_progress := st.user_progress.map (fun p : ProgressRow =>
            if p.user_id == uid && p.level_id == level.id then
              { p with is_completed := true, score := score }
            else p) }
      | none =>
        { st with user_progress := st.user_progress ++ [ProgressRow.mk st.next_id uid level.id true score],
                  next_id := st.next_id + 1 }
    let st2 := { st1 with user_statistics := st1.user_statistics.map (fun s : StatsRow =>
        if s.user_id == uid then
          { s with best_level_completed := max s.best_level_completed level_number }
        else s) }
    (st2, true)

/-- Translation of `GameManager.is_level_unlocked` (lines 160-177): level 1
is always unlocked; otherwise fetch the progress row of the immediately
preceding level number (join of user_progress and levels) and return its
is_completed flag, with no row meaning locked. -/
def is_level_unlocked (st : DBState) (uid : ℕ) (level_number : ℤ) : Bool :=
  if level_number == 1 then true
  else
    match st.user_progress.find? (fun p =>
        p.user_id == uid && st.levels.any (fun l =>
          l.id == p.level_id && l.level_number == level_number - 1)) with
    | none => false
    | some p => p.is_completed

/-! ## Statistics: auth_manager (lines 114-171) -/

/-- The row created by `INSERT INTO user_statistics (user_id) VALUES (%s)`
with the column defaults of database_manager lines 101-113. -/
def default_stats (uid : ℕ) : StatsRow := ⟨uid, 0, 0, 0, 0, 0⟩

/-- Translation of `AuthManager.get_user_statistics` (lines 114-136): read
the statistics row of the user, creating the default row first when none
exists. -/
def get_user_statistics (st : DBState) (uid : ℕ) : DBState × StatsRow :=
  match st.user_statistics.find? (fun s => s.user_id == uid) with
  | some s => (st, s)
  | none =>
    ({ st with user_statistics := st.user_statistics ++ [default_stats uid] },
     default_stats uid)

/-- The running-average arithmetic of `update_user_statistics` lines
144-154: the new count and the three new averages computed from the
current row and one observation. -/
def statsStep (cur : StatsRow) (filler_count repetition_score flow_score : ℚ) :
    StatsRow :=
  { cur with
    total_speeches := cur.total_speeches + 1,
    avg_filler_count :=
      (cur.avg_filler_count * cur.total_speeches + filler_count) /
        (cur.total_speeches + 1),
    avg_repetition_score :=
      (cur.avg_repetition_score * cur.total_speeches + repetition_score) /
        (cur.total_speeches + 1),
    avg_flow_score :=
      (cur.avg_flow_score * cur.total_speeches + flow_score) /
        (cur.total_speeches + 1) }

/-- Uncurried form of `statsStep`, folding one (filler, repetition, flow)
observation into a statistics row. -/
def stepFn (cur : StatsRow) (o : ℚ × ℚ × ℚ) : StatsRow :=
  statsStep cur o.1 o.2.1 o.2.2

/-- The UPDATE statement of `update_user_statistics` lines 157-165: write
count and averages into every statistics row of the user, leaving
best_level_completed untouched. -/
def statsWrite (st : DBState) (uid : ℕ) (w : StatsRow) : DBState :=
  { st with user_statistics := st.user_statistics.map (fun s : StatsRow =>
      if s.user_id == uid then
        { s with total_speeches := w.total_speeches,
                 avg_filler_count := w.avg_filler_count,
                 avg_repetition_score := w.avg_repetition_score,
                 avg_flow_score := w.avg_flow_score }
      else s) }

/-- Translation of `AuthManager.update_user_statistics` (lines 138-171):
read the current row (creating a default one if missing), compute the new
count and averages, write them back.  A missing or non-numeric field of
the analysis raises KeyError / TypeError, caught by the `except` arm which
returns False after the read (and its possible default insert) has already
committed. -/
def update_user_statistics (st : DBState) (uid : ℕ) (speech_analysis : Json) :
    DBState × Bool :=
  let read := get_user_statistics st uid
  match (speech_analysis.get? "filler_count").bind Json.numval,
        (speech_analysis.get? "repetition_score").bind Json.numval,
        (speech_analysis.get? "flow_score").bind Json.numval with
  | some f, some r, some fl => (statsWrite read.1 uid (statsStep read.2 f r fl), true)
  | _, _, _ => (read.1, false)

/-- An analysis object carrying exactly the three fields
`update_user_statistics` reads, for stating the running-average claim. -/
def mkObsJson (o : ℚ × ℚ × ℚ) : Json :=
  .obj [("filler_count", .num o.1),
        ("repetition_score", .num o.2.1),
        ("flow_score", .num o.2.2)]

/-- N sequential `update_user_statistics` calls for one user. -/
def runUpdates (st : DBState) (uid : ℕ) (obs : List (ℚ × ℚ × ℚ)) : DBState :=
  obs.foldl (fun s o => (update_user_statistics s uid (mkObsJson o)).1) st

/-- Two concurrent `update_user_statistics` calls under the
read-read-write-write interleaving: both calls execute their SELECT before
either executes its UPDATE.  Each phase is the corresponding piece of the
source function; nothing in the source orders the two calls, because every
statement commits individually (database_manager lines 193-212) and no
lock is taken. -/
def update_user_statistics_rrww (st : DBState) (uid : ℕ) (a b : Json) : DBState :=
  let readA := get_user_statistics st uid
  let readB := get_user_statistics readA.1 uid
  let stA :=
    match (a.get? "filler_count").bind Json.numval,
          (a.get? "repetition_score").bind Json.numval,
          (a.get? "flow_score").bind Json.numval with
    | some f, some r, some fl => statsWrite readB.1 uid (statsStep readA.2 f r fl)
    | _, _, _ => readB.1
  match (b.get? "filler_count").bind Json.numval,
        (b.get? "repetition_score").bind Json.numval,
        (b.get? "flow_score").bind Json.numval with
  | some f, some r, some fl => statsWrite stA uid (statsStep readB.2 f r fl)
  | _, _, _ => stA

/-! ## TranscriptionClient: transcription_manager (lines 16-45, 157-198)

The HTTP calls are oracles: `_upload_audio` collapses to the optional
upload URL it returns (None on a failed status, a missing URL, a bad WAV
header or a raised exception), `_request_transcription` to the optional
transcript id, and the polling endpoint to a function from attempt index
to reported status. -/

inductive PollStatus where
  | processing
  | completed (text : String)
  | error (msg : String)
  | httpFail

/-- The polling loop body of `_wait_for_completion` (lines 163-191):
a non-200 status check returns None, a completed job returns the stripped
text unless it is empty, an errored job returns None, otherwise the loop
continues until the attempt bound runs out. -/
def waitFrom (poll : ℕ → PollStatus) : ℕ → ℕ → Option String
  | _, 0 => none
  | attempts, fuel + 1 =>
    match poll attempts with
    | .httpFail => none
    | .completed text =>
      let t := text.trim
      if t = "" then none else some t
    | .error _ => none
    | .processing => waitFrom poll (attempts + 1) fuel

/-- The attempt bound of `_wait_for_completion` line 160. -/
def max_attempts : ℕ := 60

/-- Translation of `TranscriptionManager._wait_for_completion`
(lines 157-198). -/
def wait_for_completion (poll : ℕ → PollStatus) : Option String :=
  waitFrom poll 0 max_attempts

/-- Translation of `TranscriptionManager.transcribe_audio` (lines 16-45):
file guards, upload, job submission, then polling.  Note that every
polling-stage failure (timeout, provider-reported error, empty text,
failed status check) reaches `return transcription, None` as
`(None, None)` - with no error message - while upload and submission
failures return an error message. -/
def transcribe_audio (fileExists : Bool) (fileSize : ℕ) (content_type : String)
    (uploadUrl : Option String) (transcriptId : Option String)
    (poll : ℕ → PollStatus) : Option String × Option String :=
  if ¬fileExists then (none, some "Audio file not found")
  else if fileSize = 0 then (none, some "Audio file is empty")
  else if content_type = "audio/wav" ∧ fileSize < 100 then
    (none, some "WAV file is too small to contain valid audio")
  else
    match uploadUrl with
    | none => (none, some "Failed to upload audio")
    | some _ =>
      match transcriptId with
      | none => (none, some "Failed to start transcription")
      | some _ => (wait_for_completion poll, none)

/-! ## SubmissionPipeline: routes.upload_audio (lines 94-186) -/

/-- Python substring membership `sub in s`. -/
def strContains (s sub : String) : Bool := 2 ≤ (s.splitOn sub).length

/-- The content-type determination of routes lines 115-125. -/
def routesContentType (filename content_type : String) : String :=
  let fl := filename.toLower
  if fl.endsWith ".wav" || strContains content_type "wav" then "audio/wav"
  else if fl.endsWith ".mp3" || strContains content_type "mp3" then "audio/mpeg"
  else "audio/webm"

/-- The request data read by `upload_audio` from the multipart form. -/
structure UploadRequest where
  hasAudio : Bool
  filename : String
  content_type : String
  level_number : Option ℤ
  task_id : Option ℕ
  is_quick_task_field : String
  task_prompt : String

/-- The external effects of one request: whether the saved file exists and
its size (routes line 134), the outcomes of the two transcription setup
calls, the polling oracle, the value returned by `analyze_speech` (always
defined, by C3), and the measured audio duration. -/
structure PipelineEnv where
  saveExists : Bool
  savedSize : ℕ
  uploadUrl : Option String
  transcriptId : Option String
  poll : ℕ → PollStatus
  aiResult : Json
  audioDuration : ℚ

/-- The JSON bodies `upload_audio` can answer with: 400, 500, or the
success payload of routes lines 177-182. -/
inductive UploadResponse where
  | badRequest (msg : String)
  | serverError (msg : String)
  | success (transcription : String) (analysis : Json) (response_id : Option ℕ)

def UploadResponse.isSuccess : UploadResponse → Bool
  | .success _ _ _ => true
  | _ => false

/-- Effect trace of one request: whether the temporary audio file was
created, whether `os.remove` was reached for it (routes lines 171-175),
and whether `complete_level` was invoked (routes lines 166-169). -/
structure Trace where
  fileSaved : Bool
  fileRemoved : Bool
  completeLevelCalled : Bool
  deriving DecidableEq

/-- The tail of the `upload_audio` handler once a usable transcription is
in hand (routes lines 153-182): record the submission, update statistics,
conditionally complete the level (only when not a quick task, the level
number is truthy, and the score reaches the passing threshold 60), remove
the temporary file, answer with the success payload. -/
def pipeline_success_tail (req : UploadRequest) (env : PipelineEnv) (uid : ℕ)
    (st : DBState) (transcription : String) : UploadResponse × DBState × Trace :=
  let is_quick_task := req.is_quick_task_field.toLower == "true"
  let saved := save_speech_response st uid req.level_number req.task_id
    transcription env.aiResult env.audioDuration is_quick_task
  let st2 := (update_user_statistics saved.1 uid env.aiResult).1
  let finish :=
    if is_quick_task then (st2, false)
    else
      match req.level_number with
      | none => (st2, false)
      | some n =>
        if n = 0 then (st2, false)
        else
          let score := calculate_level_score env.aiResult
          if 60 ≤ score then ((complete_level st2 uid n score).1, true)
          else (st2, false)
  (.success transcription env.aiResult saved.2, finish.1, ⟨true, true, finish.2⟩)

/-- Translation of the `upload_audio` route handler (routes lines 94-186):
validate the form, save the file, transcribe, analyze, then run
`pipeline_success_tail`.  The except arm for database or filesystem
exceptions is outside the model; the oracles cover every remote-call
failure. -/
def upload_audio (req : UploadRequest) (env : PipelineEnv) (uid : ℕ)
    (st : DBState) : UploadResponse × DBState × Trace :=
  if ¬req.hasAudio then
    (.badRequest "No audio file provided", st, ⟨false, false, false⟩)
  else if req.filename = "" then
    (.badRequest "No file selected", st, ⟨false, false, false⟩)
  else
    let content_type := routesContentType req.filename req.content_type
    if ¬env.saveExists ∨ env.savedSize = 0 then
      (.serverError "Failed to save audio file", st, ⟨env.saveExists, false, false⟩)
    else
      match transcribe_audio true env.savedSize content_type
          env.uploadUrl env.transcriptId env.poll with
      | (_, some e) =>
        (.serverError ("Transcription failed: " ++ e), st, ⟨true, false, false⟩)
      | (none, none) =>
        (.badRequest "Could not transcribe audio or speech too short", st,
         ⟨true, false, false⟩)
      | (some transcription, none) =>
        if transcription = "" ∨ transcription.trim.length < 5 then
          (.badRequest "Could not transcribe audio or speech too short", st,
           ⟨true, false, false⟩)
        else
          pipeline_success_tail req env uid st transcription

/-! ## Sample data for witnesses -/

/-- Seed levels 1 and 2 (database_manager lines 128-140 seeds five; two
suffice for the witnesses). -/
def sampleLevels : List LevelRow := [⟨1, 1, true⟩, ⟨2, 2, true⟩]

/-- A fresh statistics row for user 1. -/
def sampleStats : StatsRow := default_stats 1

/-- A small database: two levels, no progress, fresh statistics for
user 1, no submissions. -/
def sampleState : DBState := ⟨sampleLevels, [], [sampleStats], [], 10⟩

/-- A well-formed upload request for level 1. -/
def sampleReq : UploadRequest :=
  ⟨true, "speech.wav", "audio/wav", some 1, some 3, "false", "Tell a story"⟩

/-- The analysis of Scenario A: repetition 70, flow 65, confidence 60,
4 fillers, no weak words. -/
def sampleAnalysis : Json := mkAnalysis 70 65 60 4 0

/-- An environment in which every remote call succeeds and the provider
completes on the first poll with the Scenario A transcript. -/
def happyEnv : PipelineEnv :=
  ⟨true, 4096, some "https://cdn/upload/1", some "job-1",
   fun _ => .completed "um so like I think the the best advice is uh patience",
   sampleAnalysis, 1/2⟩

/-- An environment whose provider reports the job as errored on the first
poll. -/
def jobErrorEnv : PipelineEnv :=
  ⟨true, 4096, some "https://cdn/upload/1", some "job-1",
   fun _ => .error "word boost not available", sampleAnalysis, 1/2⟩

/-- An environment whose provider never finishes the job: every poll
reports processing, so the attempt bound runs out. -/
def timeoutEnv : PipelineEnv :=
  ⟨true, 4096, some "https://cdn/upload/1", some "job-1",
   fun _ => .processing, sampleAnalysis, 1/2⟩

/-- An environment whose upload call fails. -/
def uploadFailEnv : PipelineEnv :=
  ⟨true, 4096, none, none, fun _ => .processing, sampleAnalysis, 1/2⟩

/-! # Theorems -/

theorem calculate_level_score_eval (r f c fc wc : ℚ) :
    calculate_level_score (mkAnalysis r f c fc wc) =
      round (max 0 ((r + f + c) / 3 - min (fc * 2) 20 - min (wc * 3) 15)) := rfl

theorem round_mono_rat {x y : ℚ} (h : x ≤ y) : round x ≤ round y := by
  rw [round_eq, round_eq]
  exact Int.floor_le_floor (by linarith)

theorem round_max_zero (x : ℚ) : round (max 0 x) = max 0 (round x) := by
  rcases le_total 0 x with h | h
  · rw [max_eq_right h, max_eq_right]
    have h0 : round (0 : ℚ) ≤ round x := round_mono_rat h
    simpa using h0
  · rw [max_eq_left h, round_zero, max_eq_left]
    have h0 : round x ≤ round (0 : ℚ) := round_mono_rat h
    simpa using h0

theorem calculate_level_score_closed_form (r f c : ℤ) (fc wc : ℕ) :
    calculate_level_score (mkAnalysis r f c fc wc) = claimedScore r f c fc wc := by
  rw [calculate_level_score_eval, claimedScore, round_max_zero]
  ring_nf

/-- C1: for analysis results with repetition, flow and confidence in
[0, 100] and non-negative integer filler and weak-word counts,
`calculate_level_score` returns exactly
`max 0 (round ((repetition + flow + confidence) / 3 - min (2 * filler) 20 - min (3 * weak) 15))`;
consequently the result lies in [0, 100], is non-increasing in each count,
and the two penalties saturate from filler count 10 and weak-word count 5
on (caps 20 and 15). -/
theorem C1_calculate_level_score (r f c : ℤ) (fc wc : ℕ)
    (hr0 : 0 ≤ r) (hr1 : r ≤ 100) (hf0 : 0 ≤ f) (hf1 : f ≤ 100)
    (hc0 : 0 ≤ c) (hc1 : c ≤ 100) :
    calculate_level_score (mkAnalysis r f c fc wc) = claimedScore r f c fc wc ∧
    (0 ≤ calculate_level_score (mkAnalysis r f c fc wc) ∧
      calculate_level_score (mkAnalysis r f c fc wc) ≤ 100) ∧
    (∀ fc2 wc2 : ℕ, fc ≤ fc2 → wc ≤ wc2 →
      calculate_level_score (mkAnalysis r f c fc2 wc2) ≤
        calculate_level_score (mkAnalysis r f c fc wc)) ∧
    ((10 ≤ fc →
      calculate_level_score (mkAnalysis r f c fc wc) =
        calculate_level_score (mkAnalysis r f c 10 wc)) ∧
     (5 ≤ wc →
      calculate_level_score (mkAnalysis r f c fc wc) =
        calculate_level_score (mkAnalysis r f c fc 5))) := by
  have hrq0 : (0 : ℚ) ≤ (r : ℚ) := by exact_mod_cast hr0
  have hfq0 : (0 : ℚ) ≤ (f : ℚ) := by exact_mod_cast hf0
  have hcq0 : (0 : ℚ) ≤ (c : ℚ) := by exact_mod_cast hc0
  have hbase1 : ((r : ℚ) + f + c) / 3 ≤ 100 := by
    rw [div_le_iff₀ (by norm_num : (0 : ℚ) < 3)]
    have hr : (r : ℚ) ≤ 100 := by exact_mod_cast hr1
    have hf : (f : ℚ) ≤ 100 := by exact_mod_cast hf1
    have hc : (c : ℚ) ≤ 100 := by exact_mod_cast hc1
    linarith
  have hpen : ∀ x cap : ℚ, 0 ≤ x → 0 ≤ cap → 0 ≤ min x cap := fun x cap hx hcap =>
    le_min hx hcap
  refine ⟨calculate_level_score_closed_form r f c fc wc, ⟨?_, ?_⟩, ?_, ?_, ?_⟩
  · rw [calculate_level_score_eval]
    have h0 : round (0 : ℚ) ≤
        round (max 0 ((r + f + c : ℚ) / 3 - min (fc * 2) 20 - min (wc * 3) 15)) :=
      round_mono_rat (le_max_left _ _)
    simpa using h0
  · rw [calculate_level_score_eval]
    have hm : max 0 ((r + f + c : ℚ) / 3 - min ((fc : ℚ) * 2) 20 - min ((wc : ℚ) * 3) 15) ≤ 100 := by
      have h1 : (0 : ℚ) ≤ min ((fc : ℚ) * 2) 20 := hpen _ _ (by positivity) (by norm_num)
      have h2 : (0 : ℚ) ≤ min ((wc : ℚ) * 3) 15 := hpen _ _ (by positivity) (by norm_num)
      exact max_le (by norm_num) (by linarith)
    have := round_mono_rat hm
    rw [show round (100 : ℚ) = 100 by
      exact_mod_cast round_intCast (α := ℚ) 100] at this
    exact this
  · intro fc2 wc2 hfc hwc
    rw [calculate_level_score_eval, calculate_level_score_eval]
    apply round_mono_rat
    apply max_le_max le_rfl
    have h1 : min ((fc : ℚ) * 2) 20 ≤ min ((fc2 : ℚ) * 2) 20 := by
      apply min_le_min _ le_rfl
      have : (fc : ℚ) ≤ fc2 := by exact_mod_cast hfc
      linarith
    have h2 : min ((wc : ℚ) * 3) 15 ≤ min ((wc2 : ℚ) * 3) 15 := by
      apply min_le_min _ le_rfl
      have : (wc : ℚ) ≤ wc2 := by exact_mod_cast hwc
      linarith
    linarith
  · intro hfc
    rw [calculate_level_score_eval, calculate_level_score_eval]
    have h1 : min ((fc : ℚ) * 2) 20 = 20 := by
      apply min_eq_right
      have : (10 : ℚ) ≤ fc := by exact_mod_cast hfc
      linarith
    rw [h1]
    norm_num
  · intro hwc
    rw [calculate_level_score_eval, calculate_level_score_eval]
    have h1 : min ((wc : ℚ) * 3) 15 = 15 := by
      apply min_eq_right
      have : (5 : ℚ) ≤ wc := by exact_mod_cast hwc
      linarith
    rw [h1]
    norm_num

/-- Witness for C1 at the concrete input of Scenario A of the spec:
repetition 70, flow 65, confidence 60, 4 fillers, no weak words gives
score 57, below the passing threshold 60. -/
theorem C1_calculate_level_score_witness :
    calculate_level_score (mkAnalysis 70 65 60 4 0) = claimedScore 70 65 60 4 0 ∧
    calculate_level_score (mkAnalysis 70 65 60 4 0) = 57 := by
  have h := C1_calculate_level_score 70 65 60 4 0 (by norm_num) (by norm_num)
    (by norm_num) (by norm_num) (by norm_num) (by norm_num)
  refine ⟨?_, ?_⟩
  · have := h.1
    norm_num [mkAnalysis] at this ⊢
    exact this
  · rw [calculate_level_score_eval]
    norm_num [round_eq]

/-- C3: `analyze_speech` is total (this Lean function is total by
construction, matching the try/except structure of the source), returns
exactly `fallback_analysis` on a model-call failure or a JSON-parse
failure, and that fallback carries repetition 75, flow 70, confidence 70,
zero filler and weak-word counts, the fixed summary and feedback, exactly
one generic strength and one generic improvement area, and conforms to the
same schema the prompt demands of a success result. -/
theorem C3_analyze_speech_fallback (gen : Except Unit String)
    (jsonLoads : String → Option Json) :
    (∀ e, gen = Except.error e → analyze_speech gen jsonLoads = fallback_analysis) ∧
    (∀ text, gen = Except.ok text → jsonLoads (stripFence text.trim) = none →
      analyze_speech gen jsonLoads = fallback_analysis) ∧
    (∀ text analysis, gen = Except.ok text →
      jsonLoads (stripFence text.trim) = some analysis →
      analyze_speech gen jsonLoads = analysis) ∧
    (fallback_analysis.get? "repetition_score" = some (.num 75) ∧
     fallback_analysis.get? "flow_score" = some (.num 70) ∧
     fallback_analysis.get? "confidence_score" = some (.num 70) ∧
     fallback_analysis.get? "filler_count" = some (.num 0) ∧
     fallback_analysis.get? "weak_words_count" = some (.num 0) ∧
     fallback_analysis.get? "strengths" =
       some (.arr [.str "Completed the speaking task"]) ∧
     fallback_analysis.get? "improvement_areas" =
       some (.arr [.str "Continue practicing regularly"]) ∧
     conformsAnalysisSchema fallback_analysis = true) := by
  refine ⟨?_, ?_, ?_, ?_⟩
  · intro e he
    subst he
    rfl
  · intro text he hp
    subst he
    simp [analyze_speech, hp]
  · intro text analysis he hp
    subst he
    simp [analyze_speech, hp]
  · exact ⟨rfl, rfl, rfl, rfl, rfl, rfl, rfl, rfl⟩

/-- Witness for C3: a raised model call and an unparseable model answer
both yield the fallback, which conforms to the prompt schema. -/
theorem C3_analyze_speech_fallback_witness :
    analyze_speech (Except.error ()) (fun _ => none) = fallback_analysis ∧
    analyze_speech (Except.ok "not json at all") (fun _ => none) = fallback_analysis ∧
    conformsAnalysisSchema fallback_analysis = true := by
  have h1 := C3_analyze_speech_fallback (Except.error ()) (fun _ => none)
  have h2 := C3_analyze_speech_fallback (Except.ok "not json at all") (fun _ => none)
  exact ⟨h1.1 () rfl, h2.2.1 "not json at all" rfl rfl, h1.2.2.2.2.2.2.2.2.2.2⟩

theorem statsStep_user_id (cur : StatsRow) (f r fl : ℚ) :
    (statsStep cur f r fl).user_id = cur.user_id := rfl

theorem statsStep_total (cur : StatsRow) (f r fl : ℚ) :
    (statsStep cur f r fl).total_speeches = cur.total_speeches + 1 := rfl

theorem foldl_stepFn_total (obs : List (ℚ × ℚ × ℚ)) :
    ∀ cur : StatsRow,
      (obs.foldl stepFn cur).total_speeches = cur.total_speeches + obs.length := by
  induction obs with
  | nil => intro cur; simp
  | cons o rest ih =>
    intro cur
    simp only [List.foldl_cons, List.length_cons, ih, stepFn, statsStep_total]
    omega

theorem statsStep_filler_sum (cur : StatsRow) (f r fl : ℚ) :
    (statsStep cur f r fl).avg_filler_count * ((cur.total_speeches : ℚ) + 1) =
      cur.avg_filler_count * cur.total_speeches + f := by
  simp only [statsStep]
  rw [div_mul_cancel₀]
  positivity

theorem statsStep_repetition_sum (cur : StatsRow) (f r fl : ℚ) :
    (statsStep cur f r fl).avg_repetition_score * ((cur.total_speeches : ℚ) + 1) =
      cur.avg_repetition_score * cur.total_speeches + r := by
  simp only [statsStep]
  rw [div_mul_cancel₀]
  positivity

theorem statsStep_flow_sum (cur : StatsRow) (f r fl : ℚ) :
    (statsStep cur f r fl).avg_flow_score * ((cur.total_speeches : ℚ) + 1) =
      cur.avg_flow_score * cur.total_speeches + fl := by
  simp only [statsStep]
  rw [div_mul_cancel₀]
  positivity

theorem foldl_stepFn_filler (obs : List (ℚ × ℚ × ℚ)) :
    ∀ cur : StatsRow,
      (obs.foldl stepFn cur).avg_filler_count *
          ((cur.total_speeches : ℚ) + obs.length) =
        cur.avg_filler_count * cur.total_speeches +
          (obs.map (fun o => o.1)).sum := by
  induction obs with
  | nil => intro cur; simp
  | cons o rest ih =>
    intro cur
    have h1 := ih (stepFn cur o)
    have h2 : ((stepFn cur o).total_speeches : ℚ) = (cur.total_speeches : ℚ) + 1 := by
      rw [stepFn, statsStep_total]
      push_cast
      ring
    have h3 := statsStep_filler_sum cur o.1 o.2.1 o.2.2
    simp only [List.foldl_cons, List.map_cons, List.sum_cons, List.length_cons]
    rw [h2, show (stepFn cur o).avg_filler_count = (statsStep cur o.1 o.2.1 o.2.2).avg_filler_count from rfl] at h1
    push_cast
    linear_combination h1 + h3

theorem foldl_stepFn_repetition (obs : List (ℚ × ℚ × ℚ)) :
    ∀ cur : StatsRow,
      (obs.foldl stepFn cur).avg_repetition_score *
          ((cur.total_speeches : ℚ) + obs.length) =
        cur.avg_repetition_score * cur.total_speeches +
          (obs.map (fun o => o.2.1)).sum := by
  induction obs with
  | nil => intro cur; simp
  | cons o rest ih =>
    intro cur
    have h1 := ih (stepFn cur o)
    have h2 : ((stepFn cur o).total_speeches : ℚ) = (cur.total_speeches : ℚ) + 1 := by
      rw [stepFn, statsStep_total]
      push_cast
      ring
    have h3 := statsStep_repetition_sum cur o.1 o.2.1 o.2.2
    simp only [List.foldl_cons, List.map_cons, List.sum_cons, List.length_cons]
    rw [h2, show (stepFn cur o).avg_repetition_score = (statsStep cur o.1 o.2.1 o.2.2).avg_repetition_score from rfl] at h1
    push_cast
    linear_combination h1 + h3

theorem foldl_stepFn_flow (obs : List (ℚ × ℚ × ℚ)) :
    ∀ cur : StatsRow,
      (obs.foldl stepFn cur).avg_flow_score *
          ((cur.total_speeches : ℚ) + obs.length) =
        cur.avg_flow_score * cur.total_speeches +
          (obs.map (fun o => o.2.2)).sum := by
  induction obs with
  | nil => intro cur; simp
  | cons o rest ih =>
    intro cur
    have h1 := ih (stepFn cur o)
    have h2 : ((stepFn cur o).total_speeches : ℚ) = (cur.total_speeches : ℚ) + 1 := by
      rw [stepFn, statsStep_total]
      push_cast
      ring
    have h3 := statsStep_flow_sum cur o.1 o.2.1 o.2.2
    simp only [List.foldl_cons, List.map_cons, List.sum_cons, List.length_cons]
    rw [h2, show (stepFn cur o).avg_flow_score = (statsStep cur o.1 o.2.1 o.2.2).avg_flow_score from rfl] at h1
    push_cast
    linear_combination h1 + h3

/-- One `update_user_statistics` call on a state whose statistics table is
the single row of this user behaves as one `stepFn` step. -/
theorem update_user_statistics_single (st : DBState) (uid : ℕ) (r : StatsRow)
    (o : ℚ × ℚ × ℚ) (hs : st.user_statistics = [r]) (hu : r.user_id = uid) :
    (update_user_statistics st uid (mkObsJson o)).1.user_statistics = [stepFn r o] ∧
    (update_user_statistics st uid (mkObsJson o)).2 = true := by
  subst hu
  have hfind : st.user_statistics.find? (fun s => s.user_id == r.user_id) = some r := by
    rw [hs]
    simp [List.find?]
  constructor
  · simp [update_user_statistics, get_user_statistics, hfind, mkObsJson, Json.get?,
          Json.numval, statsWrite, hs, stepFn, statsStep]
  · simp [update_user_statistics, get_user_statistics, hfind, mkObsJson, Json.get?,
          Json.numval]

theorem runUpdates_single (uid : ℕ) (obs : List (ℚ × ℚ × ℚ)) :
    ∀ (st : DBState) (r : StatsRow), st.user_statistics = [r] → r.user_id = uid →
      (runUpdates st uid obs).user_statistics = [obs.foldl stepFn r] := by
  induction obs with
  | nil =>
    intro st r hs _
    simpa [runUpdates] using hs
  | cons o rest ih =>
    intro st r hs hu
    have h := update_user_statistics_single st uid r o hs hu
    have hnext := ih (update_user_statistics st uid (mkObsJson o)).1 (stepFn r o) h.1
      (by rw [stepFn, statsStep_user_id]; exact hu)
    simpa [runUpdates, List.foldl_cons] using hnext

/-- C5: starting from a statistics row with total_speeches 0 and all
averages 0, N sequential `update_user_statistics` calls whose analyses
carry observations (filler, repetition, flow) leave total_speeches = N and
each stored average equal to the exact arithmetic mean of its N
observations over the rationals; moreover every single call replaces the
row by `statsStep`, which advances the count and all three averages in the
same step. -/
theorem C5_running_average (uid : ℕ) (obs : List (ℚ × ℚ × ℚ)) (st0 : DBState)
    (h0 : st0.user_statistics = [default_stats uid]) :
    (∃ row : StatsRow,
      (runUpdates st0 uid obs).user_statistics = [row] ∧
      row.total_speeches = obs.length ∧
      (0 < obs.length →
        row.avg_filler_count = (obs.map (fun o => o.1)).sum / obs.length ∧
        row.avg_repetition_score = (obs.map (fun o => o.2.1)).sum / obs.length ∧
        row.avg_flow_score = (obs.map (fun o => o.2.2)).sum / obs.length)) ∧
    (∀ (st : DBState) (r : StatsRow) (o : ℚ × ℚ × ℚ),
      st.user_statistics = [r] → r.user_id = uid →
      (update_user_statistics st uid (mkObsJson o)).1.user_statistics =
        [statsStep r o.1 o.2.1 o.2.2]) := by
  constructor
  · refine ⟨obs.foldl stepFn (default_stats uid),
      runUpdates_single uid obs st0 (default_stats uid) h0 rfl, ?_, ?_⟩
    · have := foldl_stepFn_total obs (default_stats uid)
      simpa [default_stats] using this
    · intro hlen
      have hlenq : ((obs.length : ℚ)) ≠ 0 := by
        have : (0 : ℚ) < obs.length := by exact_mod_cast hlen
        linarith
      have ht := foldl_stepFn_total obs (default_stats uid)
      have hf := foldl_stepFn_filler obs (default_stats uid)
      have hr := foldl_stepFn_repetition obs (default_stats uid)
      have hfl := foldl_stepFn_flow obs (default_stats uid)
      simp only [default_stats, Nat.cast_zero, zero_add, mul_zero, zero_mul] at hf hr hfl
      refine ⟨?_, ?_, ?_⟩
      · simp only [default_stats]
        rw [eq_div_iff hlenq]
        linarith [hf]
      · simp only [default_stats]
        rw [eq_div_iff hlenq]
        linarith [hr]
      · simp only [default_stats]
        rw [eq_div_iff hlenq]
        linarith [hfl]
  · intro st r o hs hu
    exact (update_user_statistics_single st uid r o hs hu).1

/-- Witness for C5: two observations with filler counts 4 and 2 leave
total_speeches 2 and average filler count 3. -/
theorem C5_running_average_witness :
    sampleState.user_statistics = [default_stats 1] ∧
    ∃ row : StatsRow,
      (runUpdates sampleState 1 [(4, 70, 65), (2, 80, 75)]).user_statistics = [row] ∧
      row.total_speeches = 2 ∧ row.avg_filler_count = 3 ∧
      row.avg_repetition_score = 75 ∧ row.avg_flow_score = 70 := by
  have h := (C5_running_average 1 [(4, 70, 65), (2, 80, 75)] sampleState rfl).1
  obtain ⟨row, hrow, htot, hmean⟩ := h
  have hm := hmean (by norm_num)
  refine ⟨rfl, row, hrow, by simpa using htot, ?_, ?_, ?_⟩
  · rw [hm.1]
    norm_num
  · rw [hm.2.1]
    norm_num
  · rw [hm.2.2]
    norm_num

/-- C10 counterexample: with user 1 starting at total_speeches 0, two
submissions observing (4, 70, 65) both succeed; run serially the final
count is 0 + 2, but under the read-read-write-write interleaving of the
same SELECT and UPDATE statements the final count is 1, not 0 + 2 - the
first update is lost, so the per-user read-modify-write of
`update_user_statistics` is not serialized. -/
theorem C10_lost_update_counterexample :
    ((runUpdates sampleState 1 [(4, 70, 65), (4, 70, 65)]).user_statistics.map
        (fun s => s.total_speeches)) = [2] ∧
    ((update_user_statistics_rrww sampleState 1 (mkObsJson (4, 70, 65))
        (mkObsJson (4, 70, 65))).user_statistics.map
        (fun s => s.total_speeches)) = [1] ∧
    (1 : ℕ) ≠ 0 + 2 := by
  refine ⟨?_, ?_, by decide⟩
  · rfl
  · rfl

/-- C10 amended: when the two successful updates of one user run serially
(each SELECT-then-UPDATE pair uninterleaved), the final count is the
initial count plus 2 and all three averages reflect both observations;
but the source takes no lock and each statement commits separately, and
under the read-read-write-write interleaving the final count is the
initial count plus 1: one update is lost. -/
theorem C10_serialized_vs_interleaved (uid : ℕ) (r : StatsRow) (a b : ℚ × ℚ × ℚ)
    (st : DBState) (hs : st.user_statistics = [r]) (hu : r.user_id = uid) :
    (∃ row : StatsRow,
      (runUpdates st uid [a, b]).user_statistics = [row] ∧
      row.total_speeches = r.total_speeches + 2 ∧
      row.avg_filler_count * ((r.total_speeches : ℚ) + 2) =
        r.avg_filler_count * r.total_speeches + (a.1 + b.1) ∧
      row.avg_repetition_score * ((r.total_speeches : ℚ) + 2) =
        r.avg_repetition_score * r.total_speeches + (a.2.1 + b.2.1) ∧
      row.avg_flow_score * ((r.total_speeches : ℚ) + 2) =
        r.avg_flow_score * r.total_speeches + (a.2.2 + b.2.2)) ∧
    (∃ lost : StatsRow,
      (update_user_statistics_rrww st uid (mkObsJson a) (mkObsJson b)).user_statistics
        = [lost] ∧
      lost.total_speeches = r.total_speeches + 1) := by
  constructor
  · refine ⟨[a, b].foldl stepFn r,
      runUpdates_single uid [a, b] st r hs hu, ?_, ?_, ?_, ?_⟩
    · have h := foldl_stepFn_total [a, b] r
      simpa using h
    · have h := foldl_stepFn_filler [a, b] r
      simp only [List.map_cons, List.map_nil, List.sum_cons, List.sum_nil,
        List.length_cons, List.length_nil] at h
      push_cast at h ⊢
      linarith [h]
    · have h := foldl_stepFn_repetition [a, b] r
      simp only [List.map_cons, List.map_nil, List.sum_cons, List.sum_nil,
        List.length_cons, List.length_nil] at h
      push_cast at h ⊢
      linarith [h]
    · have h := foldl_stepFn_flow [a, b] r
      simp only [List.map_cons, List.map_nil, List.sum_cons, List.sum_nil,
        List.length_cons, List.length_nil] at h
      push_cast at h ⊢
      linarith [h]
  · subst hu
    have hfind : st.user_statistics.find? (fun s => s.user_id == r.user_id) = some r := by
      rw [hs]
      simp [List.find?]
    refine ⟨statsStep r b.1 b.2.1 b.2.2, ?_, rfl⟩
    simp [update_user_statistics_rrww, get_user_statistics, hfind, mkObsJson,
      Json.get?, Json.numval, statsWrite, hs, statsStep]

/-- Witness for C10 amended, at user 1 with a fresh statistics row and the
observations (4, 70, 65) and (2, 80, 75). -/
theorem C10_serialized_vs_interleaved_witness :
    sampleState.user_statistics = [default_stats 1] ∧
    (default_stats 1).user_id = 1 ∧
    (∃ row : StatsRow,
      (runUpdates sampleState 1 [(4, 70, 65), (2, 80, 75)]).user_statistics = [row] ∧
      row.total_speeches = 2) ∧
    (∃ lost : StatsRow,
      (update_user_statistics_rrww sampleState 1 (mkObsJson (4, 70, 65))
        (mkObsJson (2, 80, 75))).user_statistics = [lost] ∧
      lost.total_speeches = 1) := by
  have h := C10_serialized_vs_interleaved 1 (default_stats 1) (4, 70, 65) (2, 80, 75)
    sampleState rfl rfl
  obtain ⟨⟨row, hrow, htot, _⟩, ⟨lost, hlost, hltot⟩⟩ := h
  exact ⟨rfl, rfl, ⟨row, hrow, by simpa using htot⟩, ⟨lost, hlost, by simpa using hltot⟩⟩

theorem filter_key_map_upd {α : Type} (l : List α) (key : α → Bool)
    (f : α → α) (hpres : ∀ p, key (f p) = key p) :
    (l.map f).filter key = (l.filter key).map f := by
  rw [List.filter_map]
  congr 1
  exact List.filter_congr (fun x _ => by simp [Function.comp, hpres])

theorem complete_level_snd (st : DBState) (uid : ℕ) (n score : ℤ)
    (level : LevelRow)
    (hl : st.levels.find? (fun l => l.level_number == n) = some level) :
    (complete_level st uid n score).2 = true := by
  cases hfind : st.user_progress.find? (fun p => p.user_id == uid && p.level_id == level.id) with
  | none => simp [complete_level, hl, hfind]
  | some p0 => simp [complete_level, hl, hfind]

theorem complete_level_levels (st : DBState) (uid : ℕ) (n score : ℤ)
    (level : LevelRow)
    (hl : st.levels.find? (fun l => l.level_number == n) = some level) :
    (complete_level st uid n score).1.levels = st.levels := by
  cases hfind : st.user_progress.find? (fun p => p.user_id == uid && p.level_id == level.id) with
  | none => simp [complete_level, hl, hfind]
  | some p0 => simp [complete_level, hl, hfind]

theorem complete_level_stats (st : DBState) (uid : ℕ) (n score : ℤ)
    (level : LevelRow)
    (hl : st.levels.find? (fun l => l.level_number == n) = some level) :
    (complete_level st uid n score).1.user_statistics =
      st.user_statistics.map (fun s : StatsRow =>
        if s.user_id == uid
        then { s with best_level_completed := max s.best_level_completed n }
        else s) := by
  cases hfind : st.user_progress.find? (fun p => p.user_id == uid && p.level_id == level.id) with
  | none => simp [complete_level, hl, hfind]
  | some p0 => simp [complete_level, hl, hfind]

theorem complete_level_progress (st : DBState) (uid : ℕ) (n score : ℤ)
    (level : LevelRow)
    (hl : st.levels.find? (fun l => l.level_number == n) = some level) :
    (complete_level st uid n score).1.user_progress =
      match st.user_progress.find? (fun p => p.user_id == uid && p.level_id == level.id) with
      | some _ => st.user_progress.map (fun p : ProgressRow =>
          if p.user_id == uid && p.level_id == level.id
          then { p with is_completed := true, score := score }
          else p)
      | none => st.user_progress ++ [ProgressRow.mk st.next_id uid level.id true score] := by
  cases hfind : st.user_progress.find? (fun p => p.user_id == uid && p.level_id == level.id) with
  | none => simp [complete_level, hl, hfind]
  | some p0 => simp [complete_level, hl, hfind]

theorem upd_preserves_key (uid lid : ℕ) (score : ℤ) (p : ProgressRow) :
    (((if p.user_id == uid && p.level_id == lid
        then { p with is_completed := true, score := score }
        else p) : ProgressRow).user_id == uid &&
     ((if p.user_id == uid && p.level_id == lid
        then { p with is_completed := true, score := score }
        else p) : ProgressRow).level_id == lid) =
      (p.user_id == uid && p.level_id == lid) := by
  by_cases h : (p.user_id == uid && p.level_id == lid) = true
  · simp only [h, if_pos]
  · simp only [h, if_neg]
    simp at h ⊢
    exact h

/-- One `complete_level` call leaves exactly one progress row of the
(user, level) pair, completed and carrying the given score, provided the
level exists and the pair had at most one row before the call. -/
theorem complete_level_one_row (st : DBState) (uid : ℕ) (n score : ℤ)
    (level : LevelRow)
    (hl : st.levels.find? (fun l => l.level_number == n) = some level)
    (huniq : (st.user_progress.filter
      (fun p => p.user_id == uid && p.level_id == level.id)).length ≤ 1) :
    ((complete_level st uid n score).1.user_progress.filter
      (fun p => p.user_id == uid && p.level_id == level.id)).length = 1 ∧
    (∀ p ∈ (complete_level st uid n score).1.user_progress.filter
      (fun p => p.user_id == uid && p.level_id == level.id),
      p.is_completed = true ∧ p.score = score) := by
  rw [complete_level_progress st uid n score level hl]
  cases hfind : st.user_progress.find? (fun p => p.user_id == uid && p.level_id == level.id) with
  | none =>
    have hnil : st.user_progress.filter
        (fun p => p.user_id == uid && p.level_id == level.id) = [] := by
      rw [List.filter_eq_nil_iff]
      intro a ha
      exact (List.find?_eq_none.mp hfind) a ha
    constructor
    · rw [List.filter_append, hnil]
      simp
    · intro p hp
      rw [List.filter_append, hnil] at hp
      simp at hp
      subst hp
      exact ⟨rfl, rfl⟩
  | some p0 =>
    have hkey0 := List.find?_some hfind
    have hmem : p0 ∈ st.user_progress.filter
        (fun p => p.user_id == uid && p.level_id == level.id) :=
      List.mem_filter.mpr ⟨List.mem_of_find?_eq_some hfind, hkey0⟩
    have hrw := filter_key_map_upd st.user_progress
      (fun p => p.user_id == uid && p.level_id == level.id)
      (fun p : ProgressRow =>
        if p.user_id == uid && p.level_id == level.id
        then { p with is_completed := true, score := score }
        else p) (upd_preserves_key uid level.id score)
    constructor
    · rw [hrw, List.length_map]
      have h1 : 1 ≤ (st.user_progress.filter
          (fun p => p.user_id == uid && p.level_id == level.id)).length :=
        List.length_pos.mpr (List.ne_nil_of_mem hmem)
      omega
    · intro p hp
      rw [hrw] at hp
      obtain ⟨q, hq, hqeq⟩ := List.mem_map.mp hp
      have hkey : (q.user_id == uid && q.level_id == level.id) = true :=
        (List.mem_filter.mp hq).2
      rw [← hqeq]
      simp [hkey]

/-- C6: for a user, an existing level and a score, calling
`complete_level` twice with the same arguments succeeds both times and
leaves exactly one progress row of the (user, level) pair, completed and
carrying the score of the later call: the second call updates the
existing row in place instead of inserting a duplicate.  Moreover a call
maps best_level_completed of the user to its monotonic max with the level
number, so it is never decreased. -/
theorem C6_complete_level_idempotent (st : DBState) (uid : ℕ) (n score : ℤ)
    (level : LevelRow)
    (hl : st.levels.find? (fun l => l.level_number == n) = some level)
    (huniq : (st.user_progress.filter
      (fun p => p.user_id == uid && p.level_id == level.id)).length ≤ 1) :
    (complete_level st uid n score).2 = true ∧
    (complete_level (complete_level st uid n score).1 uid n score).2 = true ∧
    ((complete_level (complete_level st uid n score).1 uid n score).1.user_progress.filter
      (fun p => p.user_id == uid && p.level_id == level.id)).length = 1 ∧
    (∀ p ∈ (complete_level (complete_level st uid n score).1 uid n score).1.user_progress.filter
      (fun p => p.user_id == uid && p.level_id == level.id),
      p.is_completed = true ∧ p.score = score) ∧
    (complete_level st uid n score).1.user_statistics =
      st.user_statistics.map (fun s : StatsRow =>
        if s.user_id == uid
        then { s with best_level_completed := max s.best_level_completed n }
        else s) ∧
    List.Forall₂ (fun o w : StatsRow =>
        o.best_level_completed ≤ w.best_level_completed)
      st.user_statistics (complete_level st uid n score).1.user_statistics := by
  have hl1 : (complete_level st uid n score).1.levels.find?
      (fun l => l.level_number == n) = some level := by
    rw [complete_level_levels st uid n score level hl]
    exact hl
  have h1 := complete_level_one_row st uid n score level hl huniq
  have h2 := complete_level_one_row (complete_level st uid n score).1 uid n score level hl1
    (le_of_eq h1.1)
  refine ⟨complete_level_snd st uid n score level hl,
    complete_level_snd _ uid n score level hl1,
    h2.1, h2.2, complete_level_stats st uid n score level hl, ?_⟩
  rw [complete_level_stats st uid n score level hl]
  rw [List.forall₂_map_right_iff]
  rw [List.forall₂_same]
  intro s _
  by_cases hs : (s.user_id == uid) = true
  · simp [hs, le_max_left]
  · simp [hs]

/-- Witness for C6: user 1 completes level 1 twice with score 75 in the
sample database. -/
theorem C6_complete_level_idempotent_witness :
    sampleState.levels.find? (fun l => l.level_number == 1) = some (LevelRow.mk 1 1 true) ∧
    (sampleState.user_progress.filter
      (fun p => p.user_id == 1 && p.level_id == 1)).length ≤ 1 ∧
    ((complete_level (complete_level sampleState 1 1 75).1 1 1 75).1.user_progress.filter
      (fun p => p.user_id == 1 && p.level_id == 1)).length = 1 ∧
    (complete_level sampleState 1 1 75).2 = true := by
  have h := C6_complete_level_idempotent sampleState 1 1 75 (LevelRow.mk 1 1 true) rfl
    (by simp [sampleState])
  exact ⟨rfl, by simp [sampleState], h.2.2.1, h.1⟩

theorem eq_of_mem_of_length_le_one {α : Type} {l : List α} (h : l.length ≤ 1)
    {a b : α} (ha : a ∈ l) (hb : b ∈ l) : a = b := by
  cases l with
  | nil => cases ha
  | cons x xs =>
    cases xs with
    | nil =>
      simp at ha hb
      rw [ha, hb]
    | cons y ys =>
      simp [List.length_cons] at h

/-- C7: level 1 is unlocked for every user in every state; for k at least
1, level k + 1 is unlocked exactly when the user has a progress row for a
level with number k that is marked completed, provided the database holds
at most one such row (the at-most-one-row invariant of user_progress). -/
theorem C7_is_level_unlocked (st : DBState) (uid : ℕ) (k : ℤ) (hk : 1 ≤ k)
    (huniq : (st.user_progress.filter (fun p =>
        p.user_id == uid && st.levels.any (fun l =>
          l.id == p.level_id && l.level_number == k))).length ≤ 1) :
    is_level_unlocked st uid 1 = true ∧
    (is_level_unlocked st uid (k + 1) = true ↔
      ∃ p ∈ st.user_progress, p.user_id = uid ∧
        (∃ l ∈ st.levels, l.id = p.level_id ∧ l.level_number = k) ∧
        p.is_completed = true) := by
  constructor
  · rfl
  · have hne : ((k + 1 : ℤ) == 1) = false := by
      rw [beq_eq_false_iff_ne]
      omega
    have hsub : k + 1 - 1 = k := by ring
    rw [is_level_unlocked, hne]
    simp only [Bool.false_eq_true, if_false, hsub]
    cases hfind : st.user_progress.find? (fun p =>
        p.user_id == uid && st.levels.any (fun l =>
          l.id == p.level_id && l.level_number == k)) with
    | none =>
      simp only [Bool.false_eq_true, false_iff]
      rintro ⟨p, hp, hpu, ⟨l0, hl0, hid, hnum⟩, hcomp⟩
      have := List.find?_eq_none.mp hfind p hp
      apply this
      simp only [Bool.and_eq_true, beq_iff_eq, List.any_eq_true]
      exact ⟨hpu, l0, hl0, hid, hnum⟩
    | some p =>
      have hkeyB := List.find?_some hfind
      have hkey := hkeyB
      have hmem := List.mem_of_find?_eq_some hfind
      simp only [Bool.and_eq_true, beq_iff_eq, List.any_eq_true] at hkey
      constructor
      · intro hcomp
        obtain ⟨l0, hl0, hid, hnum⟩ := hkey.2
        exact ⟨p, hmem, hkey.1, ⟨l0, hl0, hid, hnum⟩, hcomp⟩
      · rintro ⟨q, hq, hqu, ⟨l0, hl0, hid, hnum⟩, hcomp⟩
        have hqkey : (fun p : ProgressRow =>
            p.user_id == uid && st.levels.any (fun l =>
              l.id == p.level_id && l.level_number == k)) q = true := by
          simp only [Bool.and_eq_true, beq_iff_eq, List.any_eq_true]
          exact ⟨hqu, l0, hl0, hid, hnum⟩
        have hpf : p ∈ st.user_progress.filter (fun p =>
            p.user_id == uid && st.levels.any (fun l =>
              l.id == p.level_id && l.level_number == k)) :=
          List.mem_filter.mpr ⟨hmem, hkeyB⟩
        have hqf : q ∈ st.user_progress.filter (fun p =>
            p.user_id == uid && st.levels.any (fun l =>
              l.id == p.level_id && l.level_number == k)) :=
          List.mem_filter.mpr ⟨hq, hqkey⟩
        rw [eq_of_mem_of_length_le_one huniq hpf hqf]
        exact hcomp

/-- Witness for C7: in a state where user 1 completed level 1, level 2 is
unlocked; level 1 is always unlocked. -/
theorem C7_is_level_unlocked_witness :
    is_level_unlocked
      (DBState.mk sampleLevels [ProgressRow.mk 5 1 1 true 80] [sampleStats] [] 10) 1 1
      = true ∧
    is_level_unlocked
      (DBState.mk sampleLevels [ProgressRow.mk 5 1 1 true 80] [sampleStats] [] 10) 1 2
      = true := by
  have h := C7_is_level_unlocked
    (DBState.mk sampleLevels [ProgressRow.mk 5 1 1 true 80] [sampleStats] [] 10) 1 1
    (by norm_num) (by simp [sampleLevels])
  refine ⟨h.1, ?_⟩
  have h2 := h.2.mpr ⟨ProgressRow.mk 5 1 1 true 80, by simp, rfl,
    ⟨LevelRow.mk 1 1 true, by simp [sampleLevels], rfl, rfl⟩, rfl⟩
  simpa using h2

/-- When the upload, the job submission or the polling stage fails,
`transcribe_audio` never returns a transcript with no error. -/
theorem transcribe_audio_no_success (fe : Bool) (fs : ℕ) (ct : String)
    (u : Option String) (ti : Option String) (poll : ℕ → PollStatus)
    (hfail : u = none ∨ ti = none ∨ wait_for_completion poll = none) :
    ∀ t, transcribe_audio fe fs ct u ti poll ≠ (some t, none) := by
  intro t heq
  unfold transcribe_audio at heq
  rcases hfail with h | h | h
  · subst h
    repeat' split at heq
    all_goals simp_all
  · subst h
    repeat' split at heq
    all_goals simp_all
  · repeat' split at heq
    all_goals simp_all

/-- C2: whenever the transcription stage fails - a failed upload, a failed
job submission, or a polling outcome with no transcript (provider-reported
job error, timeout, failed status check, or a completed job whose text is
empty after stripping) - the upload handler answers with an error response
and leaves the database state untouched: no SubmissionRecord, no
statistics change, no level completion. -/
theorem C2_transcription_failure_aborts (req : UploadRequest) (env : PipelineEnv)
    (uid : ℕ) (st : DBState)
    (hfail : env.uploadUrl = none ∨ env.transcriptId = none ∨
      wait_for_completion env.poll = none) :
    (upload_audio req env uid st).2.1 = st ∧
    (upload_audio req env uid st).1.isSuccess = false := by
  have hno := transcribe_audio_no_success true env.savedSize
    (routesContentType req.filename req.content_type) env.uploadUrl
    env.transcriptId env.poll hfail
  simp only [upload_audio]
  repeat' split
  all_goals try exact ⟨rfl, rfl⟩
  all_goals exfalso
  all_goals rename_i heq h
  all_goals exact hno _ heq

/-- Witness for C2: a failed upload aborts the pipeline with an error
response and no database change. -/
theorem C2_transcription_failure_aborts_witness :
    uploadFailEnv.uploadUrl = none ∧
    (upload_audio sampleReq uploadFailEnv 1 sampleState).2.1 = sampleState ∧
    (upload_audio sampleReq uploadFailEnv 1 sampleState).1.isSuccess = false := by
  have h := C2_transcription_failure_aborts sampleReq uploadFailEnv 1 sampleState
    (Or.inl rfl)
  exact ⟨rfl, h.1, h.2⟩

/-- C9 counterexample: on a transcription-failure exit the saved temporary
audio file is not removed - the handler only reaches `os.remove` on the
success path, so deletion is not guaranteed on every exit path. -/
theorem C9_temp_file_counterexample :
    (upload_audio sampleReq uploadFailEnv 1 sampleState).2.2.fileSaved = true ∧
    (upload_audio sampleReq uploadFailEnv 1 sampleState).2.2.fileRemoved = false ∧
    (upload_audio sampleReq uploadFailEnv 1 sampleState).1.isSuccess = false := by
  refine ⟨?_, ?_, ?_⟩ <;>
    simp [upload_audio, transcribe_audio, uploadFailEnv, sampleReq,
      UploadResponse.isSuccess]

/-- C9 amended: the temporary audio file is removed exactly on the success
exit of the handler (and only a path that saved the file can remove it);
on validation and transcription failure exits the file survives, and even
on success the removal is merely attempted, with `os.remove` failures
swallowed. -/
theorem C9_removed_iff_success (req : UploadRequest) (env : PipelineEnv)
    (uid : ℕ) (st : DBState) :
    (upload_audio req env uid st).2.2.fileRemoved =
      (upload_audio req env uid st).1.isSuccess ∧
    ((upload_audio req env uid st).2.2.fileRemoved = true →
      (upload_audio req env uid st).2.2.fileSaved = true) := by
  simp only [upload_audio]
  repeat' split
  all_goals simp [pipeline_success_tail, UploadResponse.isSuccess]

theorem waitFrom_timeout (poll : ℕ → PollStatus) :
    ∀ (fuel a : ℕ), (∀ i, a ≤ i → i < a + fuel → poll i = .processing) →
      waitFrom poll a fuel = none := by
  intro fuel
  induction fuel with
  | zero => intro a _; rfl
  | succ n ih =>
    intro a h
    have hpa : poll a = .processing := h a le_rfl (by omega)
    simp only [waitFrom, hpa]
    exact ih (a + 1) (fun i h1 h2 => h i (by omega) (by omega))

theorem waitFrom_error (poll : ℕ → PollStatus) :
    ∀ (fuel a j : ℕ) (m : String), a ≤ j → j < a + fuel →
      (∀ i, a ≤ i → i < j → poll i = .processing) →
      poll j = PollStatus.error m → waitFrom poll a fuel = none := by
  intro fuel
  induction fuel with
  | zero => intro a j m _ _ _ _; rfl
  | succ n ih =>
    intro a j m haj hlt hproc herr
    by_cases hja : j = a
    · subst hja
      simp only [waitFrom, herr]
    · have hpa : poll a = .processing := hproc a le_rfl (by omega)
      simp only [waitFrom, hpa]
      exact ih (a + 1) j m (by omega) (by omega)
        (fun i hi1 hi2 => hproc i (by omega) hi2) herr

/-- C8 counterexample: a provider-reported job error (and likewise a
polling timeout) makes `_wait_for_completion` return None with no error
message, so `transcribe_audio` returns (None, None) and the handler takes
the `not transcription` branch: the caller receives the 400 response
"Could not transcribe audio or speech too short", a client-caused status,
not a 5xx provider-failure response. -/
theorem C8_provider_error_counterexample :
    jobErrorEnv.poll 0 = PollStatus.error "word boost not available" ∧
    (upload_audio sampleReq jobErrorEnv 1 sampleState).1 =
      .badRequest "Could not transcribe audio or speech too short" ∧
    (upload_audio sampleReq timeoutEnv 1 sampleState).1 =
      .badRequest "Could not transcribe audio or speech too short" := by
  have herr : wait_for_completion (fun _ => PollStatus.error "word boost not available") = none :=
    waitFrom_error _ max_attempts 0 0 "word boost not available" (by omega)
      (by simp [max_attempts]) (fun i _ hi => absurd hi (by omega)) rfl
  have htime : wait_for_completion (fun _ => PollStatus.processing) = none :=
    waitFrom_timeout _ max_attempts 0 (fun i _ _ => rfl)
  refine ⟨rfl, ?_, ?_⟩
  · simp [upload_audio, transcribe_audio, jobErrorEnv, sampleReq, herr]
  · simp [upload_audio, transcribe_audio, timeoutEnv, sampleReq, htime]

/-- C8 amended: once the request reaches the transcription stage, a failed
upload or failed job submission surfaces as a 500 response carrying the
stage error; but a polling-stage failure - provider-reported job error or
exceeding the 60-attempt bound - yields None from the polling loop and the
handler answers with the 400 response "Could not transcribe audio or
speech too short", not a 5xx response. -/
theorem C8_polling_failures_as_400 (req : UploadRequest) (env : PipelineEnv)
    (uid : ℕ) (st : DBState)
    (h1 : req.hasAudio = true) (h2 : req.filename ≠ "")
    (h3 : env.saveExists = true) (h4 : env.savedSize ≠ 0)
    (h5 : routesContentType req.filename req.content_type = "audio/wav" →
      100 ≤ env.savedSize) :
    (env.uploadUrl = none →
      (upload_audio req env uid st).1 =
        .serverError "Transcription failed: Failed to upload audio") ∧
    (∀ u, env.uploadUrl = some u → env.transcriptId = none →
      (upload_audio req env uid st).1 =
        .serverError "Transcription failed: Failed to start transcription") ∧
    (∀ u ti, env.uploadUrl = some u → env.transcriptId = some ti →
      wait_for_completion env.poll = none →
      (upload_audio req env uid st).1 =
        .badRequest "Could not transcribe audio or speech too short") ∧
    ((∀ i, i < max_attempts → env.poll i = .processing) →
      wait_for_completion env.poll = none) ∧
    (∀ j m, j < max_attempts → (∀ i, i < j → env.poll i = .processing) →
      env.poll j = PollStatus.error m → wait_for_completion env.poll = none) := by
  have hguard : ¬(routesContentType req.filename req.content_type = "audio/wav" ∧
      env.savedSize < 100) := by
    rintro ⟨hc, hlt⟩
    have := h5 hc
    omega
  refine ⟨?_, ?_, ?_, ?_, ?_⟩
  · intro hu
    simp [upload_audio, transcribe_audio, h1, h2, h3, h4, hguard, hu]
  · intro u hu hti
    simp [upload_audio, transcribe_audio, h1, h2, h3, h4, hguard, hu, hti]
  · intro u ti hu hti hw
    simp [upload_audio, transcribe_audio, h1, h2, h3, h4, hguard, hu, hti, hw]
  · intro hall
    exact waitFrom_timeout env.poll max_attempts 0 (fun i _ h2i => hall i (by omega))
  · intro j m hj hproc herr
    exact waitFrom_error env.poll max_attempts 0 j m (by omega) (by omega)
      (fun i _ hi => hproc i hi) herr

/-- Witness for C8 amended: the upload-failure environment yields the 500
response, and the always-processing environment exhausts the attempt
bound. -/
theorem C8_polling_failures_as_400_witness :
    (upload_audio sampleReq uploadFailEnv 1 sampleState).1 =
      .serverError "Transcription failed: Failed to upload audio" ∧
    wait_for_completion timeoutEnv.poll = none := by
  have h := C8_polling_failures_as_400 sampleReq uploadFailEnv 1 sampleState rfl
    (by decide) rfl (by decide) (fun _ => by decide)
  have h2 := C8_polling_failures_as_400 sampleReq timeoutEnv 1 sampleState rfl
    (by decide) rfl (by decide) (fun _ => by decide)
  exact ⟨h.1 rfl, h2.2.2.2.1 (fun i _ => rfl)⟩

theorem find?_user_map (l : List StatsRow) (uid : ℕ) (f : StatsRow → StatsRow)
    (hpres : ∀ s, (f s).user_id = s.user_id) :
    (l.map f).find? (fun s => s.user_id == uid) =
      (l.find? (fun s => s.user_id == uid)).map f := by
  induction l with
  | nil => rfl
  | cons x xs ih =>
    by_cases hx : (x.user_id == uid) = true
    · have hfx : ((f x).user_id == uid) = true := by rw [hpres]; exact hx
      simp only [List.map_cons]
      rw [List.find?_cons_of_pos (p := fun s : StatsRow => s.user_id == uid) _ hfx,
          List.find?_cons_of_pos (p := fun s : StatsRow => s.user_id == uid) _ hx]
      rfl
    · have hfx : ¬(((f x).user_id == uid) = true) := by rw [hpres]; exact hx
      simp only [List.map_cons]
      rw [List.find?_cons_of_neg (p := fun s : StatsRow => s.user_id == uid) _ hfx,
          List.find?_cons_of_neg (p := fun s : StatsRow => s.user_id == uid) _ hx, ih]

theorem statsWrite_find (st : DBState) (uid : ℕ) (w : StatsRow) (cur : StatsRow)
    (h : st.user_statistics.find? (fun s => s.user_id == uid) = some cur) :
    (statsWrite st uid w).user_statistics.find? (fun s => s.user_id == uid) =
      some { cur with total_speeches := w.total_speeches,
                      avg_filler_count := w.avg_filler_count,
                      avg_repetition_score := w.avg_repetition_score,
                      avg_flow_score := w.avg_flow_score } := by
  have hcur : (cur.user_id == uid) = true := by
    have hc := List.find?_some h
    exact hc
  simp only [statsWrite]
  rw [find?_user_map _ uid _
    (fun s => by by_cases hs : (s.user_id == uid) = true <;> simp [hs]), h]
  simp [hcur]
  intro hne
  exact absurd (by simpa using hcur) hne

theorem update_user_statistics_find (st : DBState) (uid : ℕ) (fb : Json)
    (cur : StatsRow) (fv rv flv : ℚ)
    (hst : st.user_statistics.find? (fun s => s.user_id == uid) = some cur)
    (hf : (fb.get? "filler_count").bind Json.numval = some fv)
    (hr : (fb.get? "repetition_score").bind Json.numval = some rv)
    (hfl : (fb.get? "flow_score").bind Json.numval = some flv) :
    (update_user_statistics st uid fb).1.user_statistics.find?
        (fun s => s.user_id == uid) =
      some { cur with
        total_speeches := cur.total_speeches + 1,
        avg_filler_count :=
          (cur.avg_filler_count * cur.total_speeches + fv) / (cur.total_speeches + 1),
        avg_repetition_score :=
          (cur.avg_repetition_score * cur.total_speeches + rv) / (cur.total_speeches + 1),
        avg_flow_score :=
          (cur.avg_flow_score * cur.total_speeches + flv) / (cur.total_speeches + 1) } := by
  simp only [update_user_statistics, get_user_statistics, hst, hf, hr, hfl]
  rw [statsWrite_find st uid _ cur hst]
  simp [statsStep]

theorem update_user_statistics_speech (st : DBState) (uid : ℕ) (fb : Json) :
    (update_user_statistics st uid fb).1.speech_responses = st.speech_responses := by
  simp only [update_user_statistics, get_user_statistics, statsWrite]
  repeat' split
  all_goals rfl

theorem update_user_statistics_progress (st : DBState) (uid : ℕ) (fb : Json) :
    (update_user_statistics st uid fb).1.user_progress = st.user_progress := by
  simp only [update_user_statistics, get_user_statistics, statsWrite]
  repeat' split
  all_goals rfl

theorem complete_level_speech (st : DBState) (uid : ℕ) (n score : ℤ) :
    (complete_level st uid n score).1.speech_responses = st.speech_responses := by
  simp only [complete_level]
  repeat' split
  all_goals rfl

theorem complete_level_find_stats (st : DBState) (uidc uid : ℕ) (n score : ℤ)
    (cur : StatsRow)
    (h : st.user_statistics.find? (fun s => s.user_id == uid) = some cur) :
    ∃ srow, (complete_level st uidc n score).1.user_statistics.find?
        (fun s => s.user_id == uid) = some srow ∧
      srow.total_speeches = cur.total_speeches ∧
      srow.avg_filler_count = cur.avg_filler_count ∧
      srow.avg_repetition_score = cur.avg_repetition_score ∧
      srow.avg_flow_score = cur.avg_flow_score := by
  cases hl : st.levels.find? (fun l => l.level_number == n) with
  | none =>
    refine ⟨cur, ?_, rfl, rfl, rfl, rfl⟩
    simp [complete_level, hl, h]
  | some level =>
    have hstats := complete_level_stats st uidc n score level hl
    rw [hstats, find?_user_map _ uid _
      (fun s => by by_cases hs : (s.user_id == uidc) = true <;> simp [hs]), h]
    by_cases hs : (cur.user_id == uidc) = true
    · exact ⟨_, rfl, by simp [hs], by simp [hs], by simp [hs], by simp [hs]⟩
    · exact ⟨_, rfl, by simp [hs], by simp [hs], by simp [hs], by simp [hs]⟩

theorem upload_audio_success_run (req : UploadRequest) (env : PipelineEnv)
    (uid : ℕ) (st : DBState) (u ti t : String)
    (h1 : req.hasAudio = true) (h2 : req.filename ≠ "")
    (h3 : env.saveExists = true) (h4 : env.savedSize ≠ 0)
    (h5 : routesContentType req.filename req.content_type = "audio/wav" →
      100 ≤ env.savedSize)
    (hu : env.uploadUrl = some u) (hti : env.transcriptId = some ti)
    (ht : wait_for_completion env.poll = some t)
    (hlen : ¬(t = "" ∨ t.trim.length < 5)) :
    upload_audio req env uid st = pipeline_success_tail req env uid st t := by
  have hguard : ¬(routesContentType req.filename req.content_type = "audio/wav" ∧
      env.savedSize < 100) := by
    rintro ⟨hc, hl⟩
    have := h5 hc
    omega
  simp [upload_audio, transcribe_audio, h1, h2, h3, h4, hguard, hu, hti, ht, hlen]

/-- C4: on every successful pipeline run a SubmissionRecord is appended
and the statistics are updated regardless of the quick-task flag;
`complete_level` is invoked exactly when the submission is not a quick
task, a truthy level number was supplied, and the computed score is at
least 60; and a quick-task submission leaves every LevelProgress row
untouched. -/
theorem C4_success_effects (req : UploadRequest) (env : PipelineEnv) (uid : ℕ)
    (st : DBState) (u ti t : String) (cur : StatsRow) (fv rv flv : ℚ)
    (h1 : req.hasAudio = true) (h2 : req.filename ≠ "")
    (h3 : env.saveExists = true) (h4 : env.savedSize ≠ 0)
    (h5 : routesContentType req.filename req.content_type = "audio/wav" →
      100 ≤ env.savedSize)
    (hu : env.uploadUrl = some u) (hti : env.transcriptId = some ti)
    (ht : wait_for_completion env.poll = some t)
    (hlen : ¬(t = "" ∨ t.trim.length < 5))
    (hstats : st.user_statistics.find? (fun s => s.user_id == uid) = some cur)
    (hf : (env.aiResult.get? "filler_count").bind Json.numval = some fv)
    (hr : (env.aiResult.get? "repetition_score").bind Json.numval = some rv)
    (hfl : (env.aiResult.get? "flow_score").bind Json.numval = some flv) :
    (upload_audio req env uid st).1 =
      .success t env.aiResult (some st.next_id) ∧
    (upload_audio req env uid st).2.1.speech_responses =
      st.speech_responses ++ [SpeechRow.mk st.next_id uid req.level_number
        req.task_id t env.aiResult env.audioDuration
        (req.is_quick_task_field.toLower == "true")] ∧
    (∃ srow, (upload_audio req env uid st).2.1.user_statistics.find?
        (fun s => s.user_id == uid) = some srow ∧
      srow.total_speeches = cur.total_speeches + 1 ∧
      srow.avg_filler_count =
        (cur.avg_filler_count * cur.total_speeches + fv) / (cur.total_speeches + 1) ∧
      srow.avg_repetition_score =
        (cur.avg_repetition_score * cur.total_speeches + rv) / (cur.total_speeches + 1) ∧
      srow.avg_flow_score =
        (cur.avg_flow_score * cur.total_speeches + flv) / (cur.total_speeches + 1)) ∧
    ((upload_audio req env uid st).2.2.completeLevelCalled = true ↔
      ((req.is_quick_task_field.toLower == "true") = false ∧
        ∃ n, req.level_number = some n ∧ n ≠ 0 ∧
          60 ≤ calculate_level_score env.aiResult)) ∧
    ((req.is_quick_task_field.toLower == "true") = true →
      (upload_audio req env uid st).2.1.user_progress = st.user_progress) := by
  have hrun := upload_audio_success_run req env uid st u ti t h1 h2 h3 h4 h5 hu hti ht hlen
  rw [hrun]
  refine ⟨rfl, ?_, ?_, ?_, ?_⟩
  · cases hq : req.is_quick_task_field.toLower == "true" with
    | false =>
      cases hlv : req.level_number with
      | none =>
        simp [pipeline_success_tail, hq, hlv, update_user_statistics_speech,
          save_speech_response]
      | some n =>
        by_cases hn : n = 0
        · simp [pipeline_success_tail, hq, hlv, hn, update_user_statistics_speech,
            save_speech_response]
        · by_cases hsc : 60 ≤ calculate_level_score env.aiResult
          · simp [pipeline_success_tail, hq, hlv, hn, hsc, complete_level_speech,
              update_user_statistics_speech, save_speech_response]
          · simp [pipeline_success_tail, hq, hlv, hn, hsc,
              update_user_statistics_speech, save_speech_response]
    | true =>
      simp [pipeline_success_tail, hq, update_user_statistics_speech,
        save_speech_response]
  · cases hq : req.is_quick_task_field.toLower == "true" with
    | false =>
      cases hlv : req.level_number with
      | none =>
        simp only [pipeline_success_tail, hq]
        simp only [Bool.false_eq_true, if_false, hlv]
        exact ⟨_, update_user_statistics_find _ uid env.aiResult cur fv rv flv
          hstats hf hr hfl, rfl, rfl, rfl, rfl⟩
      | some n =>
        by_cases hn : n = 0
        · simp only [pipeline_success_tail, hq]
          simp only [Bool.false_eq_true, if_false, hlv, hn, if_pos, if_true]
          exact ⟨_, update_user_statistics_find _ uid env.aiResult cur fv rv flv
            hstats hf hr hfl, rfl, rfl, rfl, rfl⟩
        · by_cases hsc : 60 ≤ calculate_level_score env.aiResult
          · simp only [pipeline_success_tail, hq]
            simp only [Bool.false_eq_true, if_false, hlv, hn, if_neg, hsc, if_pos]
            obtain ⟨srow, hfind, hf1, hf2, hf3, hf4⟩ :=
              complete_level_find_stats
                (update_user_statistics
                  (save_speech_response st uid (some n) req.task_id t env.aiResult
                    env.audioDuration false).1 uid env.aiResult).1
                uid uid n (calculate_level_score env.aiResult) _
                (update_user_statistics_find
                  (save_speech_response st uid (some n) req.task_id t env.aiResult
                    env.audioDuration false).1 uid env.aiResult cur fv rv flv
                  hstats hf hr hfl)
            exact ⟨srow, hfind, hf1, hf2, hf3, hf4⟩
          · simp only [pipeline_success_tail, hq]
            simp only [Bool.false_eq_true, if_false, hlv, hn, if_neg, hsc]
            exact ⟨_, update_user_statistics_find _ uid env.aiResult cur fv rv flv
              hstats hf hr hfl, rfl, rfl, rfl, rfl⟩
    | true =>
      simp only [pipeline_success_tail, hq, if_pos, if_true]
      exact ⟨_, update_user_statistics_find _ uid env.aiResult cur fv rv flv
        hstats hf hr hfl, rfl, rfl, rfl, rfl⟩
  · cases hq : req.is_quick_task_field.toLower == "true" with
    | false =>
      cases hlv : req.level_number with
      | none => simp [pipeline_success_tail, hq, hlv]
      | some n =>
        by_cases hn : n = 0
        · simp [pipeline_success_tail, hq, hlv, hn]
        · by_cases hsc : 60 ≤ calculate_level_score env.aiResult
          · simp [pipeline_success_tail, hq, hlv, hn, hsc]
          · simp [pipeline_success_tail, hq, hlv, hn, hsc]
    | true => simp [pipeline_success_tail, hq]
  · intro hq2
    simp [pipeline_success_tail, hq2, update_user_statistics_progress,
      save_speech_response]

/-- The Scenario A transcript has no leading or trailing whitespace, so
one unfolding of each trimming scan suffices and the kernel can evaluate
the rest. -/
theorem sample_trim :
    ("um so like I think the the best advice is uh patience").trim =
      "um so like I think the the best advice is uh patience" := by
  unfold String.trim Substring.trim String.toSubstring
  unfold Substring.takeWhileAux Substring.takeRightWhileAux
  rfl

theorem wait_for_completion_first_completed (poll : ℕ → PollStatus) (text : String)
    (h0 : poll 0 = .completed text) (hne : ¬(text.trim = "")) :
    wait_for_completion poll = some text.trim := by
  show waitFrom poll 0 max_attempts = _
  rw [show max_attempts = 59 + 1 from rfl]
  simp only [waitFrom, h0]
  rw [if_neg hne]

/-- Witness for C4: a fully successful run for user 1 on level 1 with the
Scenario A transcript and analysis yields the success payload, appends the
submission, and bumps total_speeches to 1. -/
theorem C4_success_effects_witness :
    sampleReq.hasAudio = true ∧
    wait_for_completion happyEnv.poll =
      some "um so like I think the the best advice is uh patience" ∧
    (upload_audio sampleReq happyEnv 1 sampleState).1 =
      .success "um so like I think the the best advice is uh patience"
        sampleAnalysis (some sampleState.next_id) ∧
    (∃ srow, (upload_audio sampleReq happyEnv 1 sampleState).2.1.user_statistics.find?
        (fun s => s.user_id == 1) = some srow ∧ srow.total_speeches = 1) := by
  have htrim := sample_trim
  have ht : wait_for_completion happyEnv.poll =
      some "um so like I think the the best advice is uh patience" := by
    have h := wait_for_completion_first_completed happyEnv.poll
      "um so like I think the the best advice is uh patience" rfl
      (by simp only [htrim]; decide)
    rw [htrim] at h
    exact h
  have h := C4_success_effects sampleReq happyEnv 1 sampleState
    "https://cdn/upload/1" "job-1"
    "um so like I think the the best advice is uh patience"
    (default_stats 1) 4 70 65
    rfl (by decide) rfl (by decide) (fun _ => by decide) rfl rfl ht
    (by simp only [htrim]; decide) rfl rfl rfl rfl
  obtain ⟨hA, hB, ⟨srow, hfind, htot, _⟩, hD, hE⟩ := h
  exact ⟨rfl, ht, hA, ⟨srow, hfind, by simpa using htot⟩⟩

/-- Witness for C9 amended: on a fully successful run the file is saved
and the removal is reached; the implication of the amended statement is
discharged at that run. -/
theorem C9_removed_iff_success_witness :
    (upload_audio sampleReq happyEnv 1 sampleState).2.2.fileRemoved = true ∧
    (upload_audio sampleReq happyEnv 1 sampleState).2.2.fileSaved = true := by
  have ht : wait_for_completion happyEnv.poll =
      some "um so like I think the the best advice is uh patience" := by
    have h := wait_for_completion_first_completed happyEnv.poll
      "um so like I think the the best advice is uh patience" rfl
      (by simp only [sample_trim]; decide)
    rw [sample_trim] at h
    exact h
  have hrun := upload_audio_success_run sampleReq happyEnv 1 sampleState
    "https://cdn/upload/1" "job-1"
    "um so like I think the the best advice is uh patience"
    rfl (by decide) rfl (by decide) (fun _ => by decide) rfl rfl ht
    (by simp only [sample_trim]; decide)
  have hrem : (upload_audio sampleReq happyEnv 1 sampleState).2.2.fileRemoved = true := by
    rw [hrun]
    rfl
  exact ⟨hrem, (C9_removed_iff_success sampleReq happyEnv 1 sampleState).2 hrem⟩
